import Mathlib

/-!
Verification of the geonames-api core: the record store populated by
`src/loader/load-data.js` and the search / reverse-geocoding queries issued by
`src/api/server.js`.  The SQL tables become lists of typed rows, the SQL
queries and the JS row handling become Lean functions over those lists.
PostgreSQL's `similarity` function (pg_trgm) and PostGIS distances are external
to the repository, so they are parameters (`sim`, `dist`) of the embedded
queries; `LOWER`/`toLowerCase`, `toUpperCase` and `ILIKE '%q%'` are modelled on
character lists (ASCII case mapping, case-insensitive substring containment,
`%`/`_` pattern metacharacters inside the query string are not modelled).
-/

/-- ASCII lower-casing of a string, as a character list (models SQL `LOWER` and
JS `toLowerCase` on the data appearing here). -/
def lowerChars (s : String) : List Char := s.data.map Char.toLower

/-- ASCII upper-casing (models JS `toUpperCase`, used on the country filter). -/
def upperStr (s : String) : String := String.mk (s.data.map Char.toUpper)

/-- Case-insensitive string equality: `LOWER(a) = LOWER(b)`. -/
def lowerEq (a b : String) : Bool := lowerChars a == lowerChars b

/-- Does `needle` occur as a contiguous run inside `hay`? -/
def occursIn (needle : List Char) : List Char → Bool
  | [] => needle.isEmpty
  | c :: rest => needle.isPrefixOf (c :: rest) || occursIn needle rest

/-- Case-insensitive substring containment: `hay ILIKE '%pat%'`. -/
def ilikeContains (hay pat : String) : Bool :=
  occursIn (lowerChars pat) (lowerChars hay)

/-- Split a character list on a separator character (models JS
`String.prototype.split` for a one-character separator). -/
def splitOnSep (sep : Char) : List Char → List (List Char)
  | [] => [[]]
  | c :: rest =>
    match splitOnSep sep rest with
    | [] => if c == sep then [[], []] else [[c]]
    | g :: gs => if c == sep then [] :: g :: gs else (c :: g) :: gs

/-- Decimal parse of an id column.  JS `parseInt` produces `NaN` on a
non-numeric id, which makes the subsequent query throw and the row be skipped;
that failure is the `none` case here. -/
def parseNat (s : String) : Option Nat :=
  if s.data = [] then none
  else s.data.foldl
    (fun acc c => acc.bind (fun n => if c.isDigit then some (10 * n + (c.toNat - 48)) else none))
    (some 0)

/-- A row of the `countries` table (seeded by `loadCountriesData`).
`name_translations` is the parsed JSONB object as an association list. -/
structure Country where
  country_code : String
  name : String
  latitude : ℚ := 0
  longitude : ℚ := 0
  spoken_languages : String := ""
  name_translations : List (String × String) := []
deriving DecidableEq

/-- A row of the `cities` table (one parsed line of the places dump). -/
structure City where
  geonameid : Nat
  name : String
  ascii_name : String := ""
  alternatenames : String := ""
  latitude : ℚ := 0
  longitude : ℚ := 0
  feature_class : String := ""
  feature_code : String := ""
  country_code : String
  admin1_code : String := ""
  admin1_name : Option String := none
  population : Option Int := none
  elevation : Option Int := none
  timezone : String := ""
  modification_date : Option String := none
deriving DecidableEq

/-- A row of the `alternate_names` table. -/
structure AlternateName where
  alternatenameid : Nat
  geonameid : Nat
  isolanguage : String
  alternate_name : String
  is_preferred_name : Bool := false
  is_short_name : Bool := false
  is_colloquial : Bool := false
  is_historic : Bool := false
deriving DecidableEq

/-- A row of the `country_alternate_names` table (created by the loader and
queried by country search). -/
structure CountryAltName where
  country_code : String
  isolanguage : String := ""
  name : String
deriving DecidableEq

/-- The record store: the four tables, each as a list of rows in insertion
order. -/
structure Store where
  countries : List Country := []
  cities : List City := []
  alternate_names : List AlternateName := []
  country_alternate_names : List CountryAltName := []
deriving DecidableEq

/-- `INSERT INTO cities ... ON CONFLICT (geonameid) DO NOTHING`
(`loadCitiesData`, src/loader/load-data.js). -/
def insertCityIfAbsent (s : Store) (c : City) : Store :=
  if s.cities.any (fun c2 => c2.geonameid == c.geonameid) then s
  else { s with cities := s.cities ++ [c] }

/-- `INSERT INTO alternate_names ... ON CONFLICT (alternatenameid) DO NOTHING`
(`processRow`, src/loader/load-data.js). -/
def insertAlternateNameIfAbsent (s : Store) (a : AlternateName) : Store :=
  if s.alternate_names.any (fun a2 => a2.alternatenameid == a.alternatenameid) then s
  else { s with alternate_names := s.alternate_names ++ [a] }

/-- `INSERT INTO countries ... ON CONFLICT (country_code) DO UPDATE SET ...`:
every field of the conflicting row is replaced (`loadCountriesData`). -/
def upsertCountry (s : Store) (co : Country) : Store :=
  if s.countries.any (fun c2 => c2.country_code == co.country_code) then
    { s with countries :=
        s.countries.map (fun c2 => if c2.country_code == co.country_code then co else c2) }
  else { s with countries := s.countries ++ [co] }

/-- First stored country row with the given code (primary-key lookup). -/
def countryLookup (s : Store) (code : String) : Option Country :=
  s.countries.find? (fun c2 => c2.country_code == code)

/-- `loadCountriesData`: the static seed list is upserted row by row. -/
def loadCountriesData (s : Store) (seed : List Country) : Store :=
  seed.foldl upsertCountry s

/-- `loadCitiesData`: the existing-count probe short-circuits the whole import
when the collection is non-empty; otherwise each parsed row is inserted with
insert-ignore. -/
def loadCitiesData (s : Store) (rows : List City) : Store :=
  if s.cities.length > 0 then s else rows.foldl insertCityIfAbsent s

/-- One unvalidated alternate-names line, split into its first eight
tab-separated columns, all still strings (the `row` object of `processLine`). -/
structure AltRawRow where
  alternatenameid : String
  geonameid : String
  isolanguage : String
  alternate_name : String
  is_preferred_name : String := ""
  is_short_name : String := ""
  is_colloquial : String := ""
  is_historic : String := ""
deriving DecidableEq

/-- `processLine` (src/loader/load-data.js): split the line on tabs, drop it
with fewer than 8 columns, drop it unless the language code is non-empty and
at most 7 characters and the name is non-empty and at most 400 characters, and
apply the optional language allow-list (which the loader has already
lower-cased) with its `"all"` wildcard.  `some row` means the row is pushed
onto the current batch; `none` means the line is dropped without any store
access. -/
def processLine (langs : Option (List String)) (line : String) : Option AltRawRow :=
  match (splitOnSep '\t' line.data).map (fun cs => String.mk cs) with
  | c0 :: c1 :: c2 :: c3 :: c4 :: c5 :: c6 :: c7 :: _ =>
    let row : AltRawRow :=
      { alternatenameid := c0, geonameid := c1, isolanguage := c2, alternate_name := c3,
        is_preferred_name := c4, is_short_name := c5, is_colloquial := c6, is_historic := c7 }
    let langOk : Bool :=
      match langs with
      | none => true
      | some l => l.contains (String.mk (lowerChars row.isolanguage)) || l.contains "all"
    if row.isolanguage != "" && row.isolanguage.length ≤ 7 &&
        row.alternate_name != "" && row.alternate_name.length ≤ 400 && langOk then
      some row
    else none
  | _ => none

/-- `processRow` (src/loader/load-data.js): parse the ids, probe the cities
table for the referenced geonameid, and only then insert-ignore the alternate
name.  An unparsable id makes the query throw, which the surrounding catch
turns into a silent skip. -/
def processRow (s : Store) (row : AltRawRow) : Store :=
  match parseNat row.geonameid, parseNat row.alternatenameid with
  | some gid, some aid =>
    if s.cities.any (fun c => c.geonameid == gid) then
      insertAlternateNameIfAbsent s
        { alternatenameid := aid, geonameid := gid,
          isolanguage := row.isolanguage, alternate_name := row.alternate_name,
          is_preferred_name := row.is_preferred_name == "1",
          is_short_name := row.is_short_name == "1",
          is_colloquial := row.is_colloquial == "1",
          is_historic := row.is_historic == "1" }
    else s
  | _, _ => s

/-- `loadAlternateNames` (src/loader/load-data.js), net store effect: the
existing-count probe short-circuits when the collection is non-empty;
otherwise every line flows through `processLine` and, when kept, `processRow`,
in file order (the batching machinery below only schedules this same
sequential work). -/
def loadAlternateNamesData (s : Store) (langs : Option (List String))
    (lines : List String) : Store :=
  if s.alternate_names.length > 0 then s
  else lines.foldl
    (fun t line =>
      match processLine langs line with
      | some row => processRow t row
      | none => t) s

/-- Alternate-name rows stored for a given place (`LEFT JOIN alternate_names
alt ON c.geonameid = alt.geonameid`). -/
def altRowsOf (s : Store) (gid : Nat) : List AlternateName :=
  s.alternate_names.filter (fun a => a.geonameid == gid)

/-- `LOWER(c.name) = LOWER($1)`. -/
def cityExactName (q : String) (c : City) : Bool := lowerEq c.name q

/-- `LOWER(c.ascii_name) = LOWER($1)`. -/
def cityExactAscii (q : String) (c : City) : Bool := lowerEq c.ascii_name q

/-- `EXISTS(... alt.geonameid = c.geonameid AND LOWER(alt.alternate_name) = LOWER($1))`. -/
def cityExactAlt (s : Store) (q : String) (c : City) : Bool :=
  s.alternate_names.any (fun a => a.geonameid == c.geonameid && lowerEq a.alternate_name q)

/-- `c.name ILIKE $2` with `$2 = '%' || q || '%'`. -/
def citySubName (q : String) (c : City) : Bool := ilikeContains c.name q

/-- `c.ascii_name ILIKE $2`. -/
def citySubAscii (q : String) (c : City) : Bool := ilikeContains c.ascii_name q

/-- `EXISTS(... alt.geonameid = c.geonameid AND alt.alternate_name ILIKE $2)`. -/
def citySubAlt (s : Store) (q : String) (c : City) : Bool :=
  s.alternate_names.any (fun a => a.geonameid == c.geonameid && ilikeContains a.alternate_name q)

/-- `GREATEST`-style fold: maximum similarity of the query against a list of
names, 0 when the list is empty (`COALESCE(MAX(similarity(...)), 0)`). -/
def maxSimList (sim : String → String → ℚ) (q : String) (names : List String) : ℚ :=
  names.foldl (fun m n => max m (sim n q)) 0

/-- The city-independent part of the search `WHERE` clause: does the city's own
name or ascii name match (`ILIKE` or the `%` trigram operator at threshold `θ`)?
When it does, every joined alternate-name row of the city survives the `WHERE`. -/
def cityNameWhere (sim : String → String → ℚ) (θ : ℚ) (q : String) (c : City) : Bool :=
  citySubName q c || citySubAscii q c ||
    decide (θ ≤ sim c.name q) || decide (θ ≤ sim c.ascii_name q)

/-- Does one joined alternate-name row satisfy the `WHERE` clause on its own
(`alt.alternate_name ILIKE $2 OR alt.alternate_name % $1`)? -/
def altRowWhere (sim : String → String → ℚ) (θ : ℚ) (q : String) (a : AlternateName) : Bool :=
  ilikeContains a.alternate_name q || decide (θ ≤ sim a.alternate_name q)

/-- The joined alternate-name rows of a city that survive the `WHERE` clause
(the rows the `GROUP BY` group is made of): all of them when the city's own
names match, otherwise only the individually matching rows. -/
def survivingAlts (s : Store) (sim : String → String → ℚ) (θ : ℚ) (q : String)
    (c : City) : List AlternateName :=
  if cityNameWhere sim θ q c then altRowsOf s c.geonameid
  else (altRowsOf s c.geonameid).filter (altRowWhere sim θ q)

/-- A city contributes a search row iff at least one of its joined rows
survives the `WHERE` clause. -/
def cityCandidate (s : Store) (sim : String → String → ℚ) (θ : ℚ) (q : String)
    (c : City) : Bool :=
  cityNameWhere sim θ q c || (altRowsOf s c.geonameid).any (altRowWhere sim θ q)

/-- The city score `CASE` ladder of the search query (src/api/server.js,
lines 81-93), top to bottom; the fallback tier takes the greatest similarity
over the name, the ascii name and the group's surviving alternate names,
scaled by 10. -/
def cityScore (s : Store) (sim : String → String → ℚ) (θ : ℚ) (q : String)
    (c : City) : ℚ :=
  if cityExactName q c then 100
  else if cityExactAscii q c then 95
  else if cityExactAlt s q c then 90
  else if citySubName q c then 80
  else if citySubAscii q c then 75
  else if citySubAlt s q c then 70
  else 10 * max (max (sim c.name q) (sim c.ascii_name q))
      (maxSimList sim q ((survivingAlts s sim θ q c).map (fun a => a.alternate_name)))

/-- One step of `json_object_agg` as parsed back by `JSON.parse`: a later pair
with an already-present key overwrites that key's value in place, a new key is
appended. -/
def upsertAssoc (m : List (String × String)) (kv : String × String) :
    List (String × String) :=
  if m.any (fun p => p.1 == kv.1) then m.map (fun p => if p.1 == kv.1 then kv else p)
  else m ++ [kv]

/-- `json_object_agg(alt.isolanguage, alt.alternate_name)` over the group's
rows, in row order (the SQL `FILTER` only strips NULL columns, which do not
arise for rows written by the loader). -/
def jsonObjectAgg (pairs : List (String × String)) : List (String × String) :=
  pairs.foldl upsertAssoc []

/-- One row of the `search_results` CTE. -/
structure SearchRow where
  rtype : String
  geonameid : Option Nat := none
  name : String
  ascii_name : String
  country_code : String
  country_name : String
  admin_region : Option String := none
  latitude : ℚ := 0
  longitude : ℚ := 0
  spoken_languages : String := ""
  country_translations : List (String × String) := []
  score : ℚ
  name_translations_agg : List (String × String) := []
deriving DecidableEq

/-- The city branch of the search CTE: `FROM cities JOIN countries ON
c.country_code = co.country_code LEFT JOIN alternate_names ... WHERE ...
GROUP BY ...`, one row per surviving (city, country) group. -/
def cityRows (s : Store) (sim : String → String → ℚ) (θ : ℚ) (q : String) :
    List SearchRow :=
  s.cities.flatMap (fun c =>
    (s.countries.filter (fun co => co.country_code == c.country_code)).filterMap
      (fun co =>
        if cityCandidate s sim θ q c then
          some { rtype := "city", geonameid := some c.geonameid,
                 name := c.name, ascii_name := c.ascii_name,
                 country_code := c.country_code, country_name := co.name,
                 admin_region := c.admin1_name,
                 latitude := c.latitude, longitude := c.longitude,
                 spoken_languages := co.spoken_languages,
                 country_translations := co.name_translations,
                 score := cityScore s sim θ q c,
                 name_translations_agg :=
                   jsonObjectAgg ((survivingAlts s sim θ q c).map
                     (fun a => (a.isolanguage, a.alternate_name))) }
        else none))

/-- Country alternate-name rows for a code (`LEFT JOIN country_alternate_names`). -/
def countryAltRowsOf (s : Store) (code : String) : List CountryAltName :=
  s.country_alternate_names.filter (fun a => a.country_code == code)

/-- `LOWER(co.name) = LOWER($1)`. -/
def countryExactName (q : String) (co : Country) : Bool := lowerEq co.name q

/-- `co.name ILIKE $2`. -/
def countrySubName (q : String) (co : Country) : Bool := ilikeContains co.name q

/-- `EXISTS(... alt.country_code = co.country_code AND LOWER(alt.name) = LOWER($1))`. -/
def countryExactAlt (s : Store) (q : String) (co : Country) : Bool :=
  s.country_alternate_names.any
    (fun a => a.country_code == co.country_code && lowerEq a.name q)

/-- `EXISTS(... alt.country_code = co.country_code AND alt.name ILIKE $2)`. -/
def countrySubAlt (s : Store) (q : String) (co : Country) : Bool :=
  s.country_alternate_names.any
    (fun a => a.country_code == co.country_code && ilikeContains a.name q)

/-- Country half of the `WHERE` clause that depends only on the country row. -/
def countryNameWhere (sim : String → String → ℚ) (θ : ℚ) (q : String)
    (co : Country) : Bool :=
  countrySubName q co || decide (θ ≤ sim co.name q)

/-- Does one joined country alternate-name row satisfy the `WHERE` clause? -/
def countryAltWhere (sim : String → String → ℚ) (θ : ℚ) (q : String)
    (a : CountryAltName) : Bool :=
  ilikeContains a.name q || decide (θ ≤ sim a.name q)

/-- The joined country alternate-name rows surviving the `WHERE` clause. -/
def countrySurvivingAlts (s : Store) (sim : String → String → ℚ) (θ : ℚ)
    (q : String) (co : Country) : List CountryAltName :=
  if countryNameWhere sim θ q co then countryAltRowsOf s co.country_code
  else (countryAltRowsOf s co.country_code).filter (countryAltWhere sim θ q)

/-- A country contributes a search row iff some joined row survives. -/
def countryCandidate (s : Store) (sim : String → String → ℚ) (θ : ℚ) (q : String)
    (co : Country) : Bool :=
  countryNameWhere sim θ q co ||
    (countryAltRowsOf s co.country_code).any (countryAltWhere sim θ q)

/-- The country score `CASE` ladder exactly as written in the query
(src/api/server.js, lines 134-143): note that the `ILIKE` rule at 80 is
evaluated before the exact-alternate rule at 90. -/
def countryScore (s : Store) (sim : String → String → ℚ) (θ : ℚ) (q : String)
    (co : Country) : ℚ :=
  if countryExactName q co then 100
  else if countrySubName q co then 80
  else if countryExactAlt s q co then 90
  else if countrySubAlt s q co then 70
  else 10 * max (sim co.name q)
      (maxSimList sim q ((countrySurvivingAlts s sim θ q co).map (fun a => a.name)))

/-- The country branch of the search CTE. -/
def countryRows (s : Store) (sim : String → String → ℚ) (θ : ℚ) (q : String) :
    List SearchRow :=
  s.countries.filterMap (fun co =>
    if countryCandidate s sim θ q co then
      some { rtype := "country", geonameid := none,
             name := co.name, ascii_name := co.name,
             country_code := co.country_code, country_name := co.name,
             admin_region := none,
             latitude := co.latitude, longitude := co.longitude,
             spoken_languages := co.spoken_languages,
             country_translations := co.name_translations,
             score := countryScore s sim θ q co,
             name_translations_agg := co.name_translations }
    else none)

/-- `ORDER BY score DESC, name ASC` as a boolean order for the sort. -/
def searchRowOrder (r1 r2 : SearchRow) : Bool :=
  decide (r2.score < r1.score) || (r1.score == r2.score && decide (r1.name ≤ r2.name))

/-- The full search query: the CTE union, the optional country filter (the
supplied code upper-cased), the optional type filter (only for valid types),
`ORDER BY score DESC, name ASC` and `LIMIT` (defaulting to 10 with
autocomplete, else 20). -/
def searchResultsRows (s : Store) (sim : String → String → ℚ) (θ : ℚ) (q : String)
    (country ctype : Option String) (auto : Bool) (limit : Option Nat) :
    List SearchRow :=
  let rows : List SearchRow := cityRows s sim θ q ++ countryRows s sim θ q
  let rows : List SearchRow :=
    match country with
    | some cc => rows.filter (fun r => r.country_code == upperStr cc)
    | none => rows
  let rows : List SearchRow :=
    match ctype with
    | some t => if t == "city" || t == "country" then rows.filter (fun r => r.rtype == t) else rows
    | none => rows
  (rows.mergeSort searchRowOrder).take (limit.getD (if auto then 10 else 20))

/-- One element of the formatted `results` array returned to the caller. -/
structure SearchResult where
  rtype : String
  name : String
  country_code : String
  country_name : String
  latitude : ℚ := 0
  longitude : ℚ := 0
  admin_region : Option String := none
  name_translations : List (String × String) := []
  spoken_languages : List String := []
deriving DecidableEq

/-- The JS result shaping (`formattedResults`, src/api/server.js, lines
178-203): cities take the aggregated translations and set `translations.en =
row.name` when `!translations.en` (that is, when the `en` entry is absent or
the empty string); countries split `spoken_languages` on commas and pass the
stored country translations through. -/
def formatSearchRow (row : SearchRow) : SearchResult :=
  if row.rtype == "city" then
    let agg := row.name_translations_agg
    let injected : Bool :=
      match agg.lookup "en" with
      | none => true
      | some v => v == ""
    { rtype := row.rtype, name := row.name,
      country_code := row.country_code, country_name := row.country_name,
      latitude := row.latitude, longitude := row.longitude,
      admin_region := row.admin_region,
      name_translations := if injected then upsertAssoc agg ("en", row.name) else agg,
      spoken_languages := [] }
  else
    { rtype := row.rtype, name := row.name,
      country_code := row.country_code, country_name := row.country_name,
      latitude := row.latitude, longitude := row.longitude,
      admin_region := none,
      name_translations := row.country_translations,
      spoken_languages :=
        if row.spoken_languages == "" then []
        else (splitOnSep ',' row.spoken_languages.data).map (fun cs => String.mk cs) }

/-- Errors surfaced to the caller by the endpoints. -/
inductive ApiError where
  | validation
deriving DecidableEq

/-- The body of a successful `/search` response. -/
structure SearchResponse where
  query : String
  results : List SearchResult
  count : Nat
  autocomplete : Bool
deriving DecidableEq

/-- `GET /search` (src/api/server.js): a missing query or one shorter than two
characters is rejected with a validation error before the store is consulted. -/
def searchEndpoint (s : Store) (sim : String → String → ℚ) (θ : ℚ)
    (q country ctype : Option String) (auto : Bool) (limit : Option Nat) :
    Except ApiError SearchResponse :=
  match q with
  | none => .error .validation
  | some qs =>
    if qs.length < 2 then .error .validation
    else
      let rs := (searchResultsRows s sim θ qs country ctype auto limit).map formatSearchRow
      .ok { query := qs, results := rs, count := rs.length, autocomplete := auto }

/-- JS `Number.prototype.toFixed(2)` on a non-negative distance: the value in
kilometers rounded to 2 decimal places. -/
def round2 (q : ℚ) : ℚ := Rat.divInt ⌊q * 100 + Rat.divInt 1 2⌋ 100

/-- One formatted `/reverse` result. -/
structure ReverseResult where
  rtype : String := "city"
  name : String
  country_code : String
  country_name : String
  admin_region : Option String := none
  latitude : ℚ := 0
  longitude : ℚ := 0
  distance_km : ℚ
deriving DecidableEq

/-- `FROM cities c JOIN countries co ON c.country_code = co.country_code` as
used by the reverse query. -/
def reverseJoined (s : Store) : List (City × Country) :=
  s.cities.flatMap (fun c =>
    (s.countries.filter (fun co => co.country_code == c.country_code)).map
      (fun co => (c, co)))

/-- The reverse query (src/api/server.js, lines 228-253) over an abstract
great-circle distance `dist` (in km, PostGIS geography): keep the joined rows
within `radiusKm` (`ST_DWithin`), order by ascending distance, keep 5. -/
def reverseRows (s : Store) (dist : City → ℚ) (radiusKm : ℚ) :
    List (City × Country) :=
  (((reverseJoined s).filter (fun p => decide (dist p.1 ≤ radiusKm))).mergeSort
    (fun p1 p2 => decide (dist p1.1 ≤ dist p2.1))).take 5

/-- The formatted `/reverse` results: each row annotated with its distance in
kilometers rounded to 2 decimals. -/
def reverseResults (s : Store) (dist : City → ℚ) (radiusKm : ℚ) :
    List ReverseResult :=
  (reverseRows s dist radiusKm).map (fun p =>
    { rtype := "city", name := p.1.name,
      country_code := p.1.country_code, country_name := p.2.name,
      admin_region := p.1.admin1_name,
      latitude := p.1.latitude, longitude := p.1.longitude,
      distance_km := round2 (dist p.1) })

/-- The body of a successful `/reverse` response. -/
structure ReverseResponse where
  latitude : ℚ
  longitude : ℚ
  results : List ReverseResult
  count : Nat
deriving DecidableEq

/-- `GET /reverse`: a missing `lat` or `lon` is rejected with a validation
error before the store is consulted, `radius` defaults to 50 km, and the
distance function receives the query point. -/
def reverseEndpoint (s : Store) (dist : ℚ → ℚ → City → ℚ)
    (lat lon : Option ℚ) (radius : Option ℚ) : Except ApiError ReverseResponse :=
  match lat, lon with
  | some la, some lo =>
    let rs := reverseResults s (dist la lo) (radius.getD 50)
    .ok { latitude := la, longitude := lo, results := rs, count := rs.length }
  | _, _ => .error .validation

/-- `BATCH_SIZE = 100`: a batch is applied as soon as it reaches this size. -/
def BATCH_SIZE : Nat := 100

/-- The `lineQueue` high-water mark: the `'line'` handler pauses the reader and
drains synchronously as soon as the queue length exceeds 1000. -/
def QUEUE_HIGH : Nat := 1000

/-- State of the alternate-names streaming loop (`loadAlternateNames`):
the part of the input file not yet emitted by `readline`, the `lineQueue` of
emitted-but-unprocessed lines, the current `batch`, the store, whether the
reader is paused, and whether a batch is being applied (`await processBatch`). -/
structure LoaderState where
  input : List String
  lineQueue : List String
  batch : List AltRawRow
  store : Store
  paused : Bool
  applying : Bool
deriving DecidableEq

/-- `processLine` followed by the conditional `batch.push(row)`. -/
def pushLine (langs : Option (List String)) (batch : List AltRawRow)
    (line : String) : List AltRawRow :=
  match processLine langs line with
  | some row => batch ++ [row]
  | none => batch

/-- The synchronous portion of `processQueue`: shift lines off the queue
through `processLine` until either the batch reaches `BATCH_SIZE` — then the
reader is paused and the loop suspends on `await processBatch` (`applying`) —
or the queue empties, after which the reader is resumed. -/
def drainAux (langs : Option (List String)) (queue : List String)
    (batch : List AltRawRow) (st : LoaderState) : LoaderState :=
  match queue with
  | [] => { st with lineQueue := [], batch := batch, applying := false, paused := false }
  | line :: rest =>
    let batch2 := pushLine langs batch line
    if BATCH_SIZE ≤ batch2.length then
      { st with lineQueue := rest, batch := batch2, applying := true, paused := true }
    else drainAux langs rest batch2 st

/-- Run the synchronous drain loop from a state's own queue and batch. -/
def drain (langs : Option (List String)) (st : LoaderState) : LoaderState :=
  drainAux langs st.lineQueue st.batch st

/-- `processBatch`: apply every batched row to the store through `processRow`. -/
def applyBatch (s : Store) (batch : List AltRawRow) : Store :=
  batch.foldl processRow s

/-- Events of the streaming loop, each one maximal synchronous JS execution.
`deliver`: `readline` emits a line (only while the reader is not paused and no
batch is in flight — during `await processBatch` the reader is paused); the
handler pushes it onto the queue and, past the high-water mark, pauses and
drains. `wake`: a scheduled `processQueue` (`setImmediate`) runs. `finishBatch`:
the awaited `processBatch` completes, the batch is applied to the store, the
reader resumes and the drain loop continues. -/
inductive LoaderStep (langs : Option (List String)) :
    LoaderState → LoaderState → Prop where
  | deliver (st : LoaderState) (line : String) (rest : List String) :
      st.input = line :: rest → st.paused = false → st.applying = false →
      LoaderStep langs st
        (if QUEUE_HIGH < (st.lineQueue ++ [line]).length then
          drain langs { st with input := rest, lineQueue := st.lineQueue ++ [line], paused := true }
        else { st with input := rest, lineQueue := st.lineQueue ++ [line] })
  | wake (st : LoaderState) :
      st.applying = false →
      LoaderStep langs st (drain langs st)
  | finishBatch (st : LoaderState) :
      st.applying = true →
      LoaderStep langs st
        (drain langs { st with store := applyBatch st.store st.batch, batch := [] })

/-- The loop starts with the whole file unread, empty queue and batch, and a
flowing reader. -/
def loaderInit (input : List String) (s : Store) : LoaderState :=
  { input := input, lineQueue := [], batch := [], store := s,
    paused := false, applying := false }

/-- States the streaming loop can be in, from the initial state. -/
def LoaderReachable (langs : Option (List String)) (input : List String)
    (s : Store) (st : LoaderState) : Prop :=
  Relation.ReflTransGen (LoaderStep langs) (loaderInit input s) st

/-! Helper lemmas about the country upsert. -/

lemma find_replaceRow (cs : List Country) (co : Country)
    (h : ∃ x ∈ cs, x.country_code = co.country_code) :
    (cs.map (fun c2 => if c2.country_code == co.country_code then co else c2)).find?
      (fun c2 => c2.country_code == co.country_code) = some co := by
  induction cs with
  | nil => rcases h with ⟨x, hx, _⟩; cases hx
  | cons x xs ih =>
    rw [List.map_cons]
    by_cases hx : x.country_code = co.country_code
    · rw [if_pos (by simp [hx])]
      exact List.find?_cons_of_pos _ (by simp)
    · rw [if_neg (by simp [hx])]
      rw [List.find?_cons_of_neg _ (by simp [hx])]
      rcases h with ⟨y, hy, hyc⟩
      rcases List.mem_cons.mp hy with rfl | hmem
      · exact absurd hyc hx
      · exact ih ⟨y, hmem, hyc⟩

lemma find_replaceRow_ne (cs : List Country) (co : Country) (code : String)
    (hne : code ≠ co.country_code) :
    (cs.map (fun c2 => if c2.country_code == co.country_code then co else c2)).find?
      (fun c2 => c2.country_code == code) =
      cs.find? (fun c2 => c2.country_code == code) := by
  induction cs with
  | nil => rfl
  | cons x xs ih =>
    rw [List.map_cons]
    by_cases hx : x.country_code = co.country_code
    · have h1 : ¬ co.country_code = code := fun h2 => hne h2.symm
      have h2 : ¬ x.country_code = code := by rw [hx]; exact h1
      rw [if_pos (by simp [hx])]
      rw [List.find?_cons_of_neg _ (by simp [h1]),
        List.find?_cons_of_neg _ (by simp [h2])]
      exact ih
    · rw [if_neg (by simp [hx])]
      by_cases hx2 : x.country_code = code
      · rw [List.find?_cons_of_pos _ (by simp [hx2]),
          List.find?_cons_of_pos _ (by simp [hx2])]
      · rw [List.find?_cons_of_neg _ (by simp [hx2]),
          List.find?_cons_of_neg _ (by simp [hx2])]
        exact ih

/-- C4: ingestion is idempotent — inserting a Place or AlternateName whose id
is already present leaves the store unchanged, re-running Place or
AlternateName ingestion against a non-empty collection performs zero
insertions thanks to the existence probe, and re-seeding a Country row with an
existing code replaces exactly that row's fields. -/
theorem c4_ingestion_idempotent (s : Store) (c c0 : City) (a a0 : AlternateName)
    (co : Country) (rows : List City) (langs : Option (List String))
    (lines : List String)
    (hc0 : c0 ∈ s.cities) (hcid : c0.geonameid = c.geonameid)
    (ha0 : a0 ∈ s.alternate_names) (haid : a0.alternatenameid = a.alternatenameid)
    (hco : ∃ x ∈ s.countries, x.country_code = co.country_code) :
    insertCityIfAbsent s c = s ∧
    insertAlternateNameIfAbsent s a = s ∧
    loadCitiesData s rows = s ∧
    loadAlternateNamesData s langs lines = s ∧
    countryLookup (upsertCountry s co) co.country_code = some co ∧
    (upsertCountry s co).countries.length = s.countries.length ∧
    (∀ code, code ≠ co.country_code →
      countryLookup (upsertCountry s co) code = countryLookup s code) := by
  have hcity : s.cities ≠ [] := List.ne_nil_of_mem hc0
  have halt : s.alternate_names ≠ [] := List.ne_nil_of_mem ha0
  have hcany : s.cities.any (fun c2 => c2.geonameid == c.geonameid) = true :=
    List.any_eq_true.mpr ⟨c0, hc0, by simp [hcid]⟩
  have haany : s.alternate_names.any
      (fun a2 => a2.alternatenameid == a.alternatenameid) = true :=
    List.any_eq_true.mpr ⟨a0, ha0, by simp [haid]⟩
  have hcoany : s.countries.any (fun c2 => c2.country_code == co.country_code) = true := by
    rcases hco with ⟨x, hx, hxc⟩
    exact List.any_eq_true.mpr ⟨x, hx, by simp [hxc]⟩
  refine ⟨?_, ?_, ?_, ?_, ?_, ?_, ?_⟩
  · simp [insertCityIfAbsent, hcany]
  · simp [insertAlternateNameIfAbsent, haany]
  · simp [loadCitiesData, List.length_pos.mpr hcity]
  · simp [loadAlternateNamesData, List.length_pos.mpr halt]
  · simp only [upsertCountry, hcoany, if_true, countryLookup]
    exact find_replaceRow s.countries co hco
  · simp [upsertCountry, hcoany]
  · intro code hne
    simp only [upsertCountry, hcoany, if_true, countryLookup]
    exact find_replaceRow_ne s.countries co code hne

/-- Constant similarity function used to instantiate the abstract pg_trgm
parameter in concrete examples. -/
def simZero : String → String → ℚ := fun _ _ => 0

/-- Constant distance function used to instantiate the abstract PostGIS
parameter in concrete examples. -/
def distZero : ℚ → ℚ → City → ℚ := fun _ _ _ => 0

/-- A one-row-per-table store used to instantiate C4. -/
def c4Store : Store :=
  { countries := [{ country_code := "GB", name := "United Kingdom" }],
    cities := [{ geonameid := 1, name := "London", country_code := "GB" }],
    alternate_names := [{ alternatenameid := 7, geonameid := 1,
                          isolanguage := "fr", alternate_name := "Londres" }] }

/-- C4 instantiated: re-inserting the stored city and alternate name ids and
re-seeding the stored country code on a concrete store. -/
theorem c4_ingestion_idempotent_witness :
    insertCityIfAbsent c4Store { geonameid := 1, name := "London2", country_code := "FR" } = c4Store ∧
    insertAlternateNameIfAbsent c4Store { alternatenameid := 7, geonameid := 2,
                                          isolanguage := "de", alternate_name := "X" } = c4Store ∧
    loadCitiesData c4Store [] = c4Store ∧
    loadAlternateNamesData c4Store none [] = c4Store ∧
    countryLookup (upsertCountry c4Store { country_code := "GB", name := "Britain" }) "GB" =
      some { country_code := "GB", name := "Britain" } ∧
    (upsertCountry c4Store { country_code := "GB", name := "Britain" }).countries.length =
      c4Store.countries.length ∧
    (∀ code, code ≠ ({ country_code := "GB", name := "Britain" } : Country).country_code →
      countryLookup (upsertCountry c4Store { country_code := "GB", name := "Britain" }) code =
        countryLookup c4Store code) :=
  c4_ingestion_idempotent c4Store
    { geonameid := 1, name := "London2", country_code := "FR" }
    { geonameid := 1, name := "London", country_code := "GB" }
    { alternatenameid := 7, geonameid := 2, isolanguage := "de", alternate_name := "X" }
    { alternatenameid := 7, geonameid := 1, isolanguage := "fr", alternate_name := "Londres" }
    { country_code := "GB", name := "Britain" } [] none []
    (by decide) (by decide) (by decide) (by decide)
    ⟨{ country_code := "GB", name := "United Kingdom" }, by decide, by decide⟩

/-- C3: a short or missing query makes search return a validation error whose
value does not depend on the store, and a missing latitude or longitude makes
reverse return a validation error whose value does not depend on the store. -/
theorem c3_validation_before_store (s1 s2 : Store) (sim : String → String → ℚ)
    (θ : ℚ) (q country ctype : Option String) (auto : Bool) (limit : Option Nat)
    (dist : ℚ → ℚ → City → ℚ) (lat lon : Option ℚ) (radius : Option ℚ)
    (hq : match q with | none => True | some qs => qs.length < 2)
    (hll : lat = none ∨ lon = none) :
    searchEndpoint s1 sim θ q country ctype auto limit = Except.error ApiError.validation ∧
    searchEndpoint s1 sim θ q country ctype auto limit =
      searchEndpoint s2 sim θ q country ctype auto limit ∧
    reverseEndpoint s1 dist lat lon radius = Except.error ApiError.validation ∧
    reverseEndpoint s1 dist lat lon radius = reverseEndpoint s2 dist lat lon radius := by
  have hs : ∀ t : Store, searchEndpoint t sim θ q country ctype auto limit =
      Except.error ApiError.validation := by
    intro t
    cases q with
    | none => rfl
    | some qs => simp only [searchEndpoint]; rw [if_pos hq]
  have hr : ∀ t : Store, reverseEndpoint t dist lat lon radius =
      Except.error ApiError.validation := by
    intro t
    rcases hll with h | h
    · subst h; cases lon <;> rfl
    · subst h; cases lat <;> rfl
  exact ⟨hs s1, (hs s1).trans (hs s2).symm, hr s1, (hr s1).trans (hr s2).symm⟩

/-- C3 instantiated: a one-character query and a missing latitude on concrete
stores. -/
theorem c3_validation_before_store_witness :
    searchEndpoint c4Store simZero 1 (some "a") none none false none =
      Except.error ApiError.validation ∧
    searchEndpoint c4Store simZero 1 (some "a") none none false none =
      searchEndpoint {} simZero 1 (some "a") none none false none ∧
    reverseEndpoint c4Store distZero none (some 0) none = Except.error ApiError.validation ∧
    reverseEndpoint c4Store distZero none (some 0) none =
      reverseEndpoint {} distZero none (some 0) none :=
  c3_validation_before_store c4Store {} simZero 1 (some "a") none none false none
    distZero none (some 0) none (by decide) (Or.inl rfl)

/-- C9: the optional country filter is upper-cased before comparison, so two
filter values with the same upper-casing (in particular a lower-case and an
upper-case spelling of the same code) give identical search responses. -/
theorem c9_country_filter_case_insensitive (s : Store) (sim : String → String → ℚ)
    (θ : ℚ) (q ctype : Option String) (auto : Bool) (limit : Option Nat)
    (cc1 cc2 : String) (h : upperStr cc1 = upperStr cc2) :
    searchEndpoint s sim θ q (some cc1) ctype auto limit =
      searchEndpoint s sim θ q (some cc2) ctype auto limit := by
  cases q with
  | none => rfl
  | some qs => simp only [searchEndpoint, searchResultsRows, h]

/-- C9 instantiated: `country="gb"` and `country="GB"` on a concrete store. -/
theorem c9_country_filter_case_insensitive_witness :
    upperStr "gb" = upperStr "GB" ∧
    searchEndpoint c4Store simZero 1 (some "london") (some "gb") none false none =
      searchEndpoint c4Store simZero 1 (some "london") (some "GB") none false none :=
  ⟨by decide, c9_country_filter_case_insensitive c4Store simZero 1 (some "london")
    none false none "gb" "GB" (by decide)⟩

/-- C6: a line survives `processLine` (is pushed onto the batch) only if it has
at least 8 tab-separated fields, a non-empty language code of at most 7
characters, a name of at most 400 characters, and — when a language allow-list
without the `"all"` wildcard is configured — a language inside the list. -/
theorem c6_line_filter (langs : Option (List String)) (line : String)
    (row : AltRawRow) (h : processLine langs line = some row) :
    8 ≤ (splitOnSep '\t' line.data).length ∧
    row.isolanguage ≠ "" ∧ row.isolanguage.length ≤ 7 ∧
    row.alternate_name.length ≤ 400 ∧
    (∀ l, langs = some l → l.contains "all" = false →
      l.contains (String.mk (lowerChars row.isolanguage)) = true) := by
  simp only [processLine] at h
  split at h
  case h_2 => exact absurd h (by simp)
  case h_1 c0 c1 c2 c3 c4 c5 c6 c7 tail heq =>
    have hlen : 8 ≤ (splitOnSep '\t' line.data).length := by
      have := congrArg List.length heq
      simp only [List.length_map, List.length_cons] at this
      omega
    split at h
    case isTrue hc =>
      cases h
      simp only [Bool.and_eq_true, bne_iff_ne, ne_eq, decide_eq_true_eq] at hc
      refine ⟨hlen, hc.1.1.1.1, hc.1.1.1.2, hc.1.2, ?_⟩
      intro l hl hall
      have hok := hc.2
      subst hl
      simp only [Bool.or_eq_true] at hok
      rcases hok with hin | hwild
      · exact hin
      · rw [hall] at hwild; cases hwild
    case isFalse => exact absurd h (by simp)

/-- C6 instantiated: a well-formed 8-column line with language `en`. -/
theorem c6_line_filter_witness :
    8 ≤ (splitOnSep '\t' ("10\t20\ten\tParis\t1\t0\t0\t0" : String).data).length ∧
    ("en" : String) ≠ "" ∧ ("en" : String).length ≤ 7 ∧
    ("Paris" : String).length ≤ 400 ∧
    (∀ l, (none : Option (List String)) = some l → l.contains "all" = false →
      l.contains (String.mk (lowerChars "en")) = true) :=
  c6_line_filter none "10\t20\ten\tParis\t1\t0\t0\t0"
    ⟨"10", "20", "en", "Paris", "1", "0", "0", "0"⟩ (by decide)

/-! Helper lemmas for the orphan-row invariant and the translation pipeline. -/

lemma processRow_orphan (s : Store) (r : AltRawRow) (gid : Nat)
    (hgid : parseNat r.geonameid = some gid)
    (horphan : ∀ c ∈ s.cities, c.geonameid ≠ gid) :
    processRow s r = s := by
  unfold processRow
  rw [hgid]
  cases haid : parseNat r.alternatenameid with
  | none => rfl
  | some aid =>
    have hany : s.cities.any (fun c => c.geonameid == gid) = false := by
      rw [List.any_eq_false]
      intro c hc
      simpa using horphan c hc
    simp only [hany, Bool.false_eq_true, if_false]

lemma mem_survivingAlts (s : Store) (sim : String → String → ℚ) (θ : ℚ)
    (q : String) (c : City) (a : AlternateName)
    (h : a ∈ survivingAlts s sim θ q c) :
    a ∈ s.alternate_names ∧ a.geonameid = c.geonameid := by
  have hsub : a ∈ altRowsOf s c.geonameid := by
    unfold survivingAlts at h
    split at h
    · exact h
    · exact List.mem_of_mem_filter h
  unfold altRowsOf at hsub
  have h2 := List.mem_filter.mp hsub
  exact ⟨h2.1, by simpa using h2.2⟩

lemma mem_upsertAssoc (m : List (String × String)) (p kv : String × String)
    (h : kv ∈ upsertAssoc m p) : kv ∈ m ∨ kv = p := by
  unfold upsertAssoc at h
  split at h
  · rcases List.mem_map.mp h with ⟨x, hx, hfx⟩
    by_cases hxk : x.1 = p.1
    · right
      rw [← hfx]
      simp [hxk]
    · left
      rw [← hfx]
      simpa [hxk] using hx
  · rcases List.mem_append.mp h with h1 | h2
    · exact Or.inl h1
    · right; simpa using h2

lemma mem_foldl_upsertAssoc (pairs : List (String × String))
    (m : List (String × String)) (kv : String × String)
    (h : kv ∈ pairs.foldl upsertAssoc m) : kv ∈ m ∨ kv ∈ pairs := by
  induction pairs generalizing m with
  | nil => exact Or.inl h
  | cons p rest ih =>
    rcases ih (upsertAssoc m p) h with hm | hr
    · rcases mem_upsertAssoc m p kv hm with h1 | h2
      · exact Or.inl h1
      · exact Or.inr (h2 ▸ List.mem_cons_self p rest)
    · exact Or.inr (List.mem_cons_of_mem p hr)

lemma mem_jsonObjectAgg (pairs : List (String × String)) (kv : String × String)
    (h : kv ∈ jsonObjectAgg pairs) : kv ∈ pairs := by
  rcases mem_foldl_upsertAssoc pairs [] kv h with h0 | h1
  · cases h0
  · exact h1

lemma mem_cityRows (s : Store) (sim : String → String → ℚ) (θ : ℚ) (q : String)
    (row : SearchRow) (h : row ∈ cityRows s sim θ q) :
    ∃ c ∈ s.cities, ∃ co ∈ s.countries,
      co.country_code = c.country_code ∧ cityCandidate s sim θ q c = true ∧
      row = { rtype := "city", geonameid := some c.geonameid,
              name := c.name, ascii_name := c.ascii_name,
              country_code := c.country_code, country_name := co.name,
              admin_region := c.admin1_name,
              latitude := c.latitude, longitude := c.longitude,
              spoken_languages := co.spoken_languages,
              country_translations := co.name_translations,
              score := cityScore s sim θ q c,
              name_translations_agg :=
                jsonObjectAgg ((survivingAlts s sim θ q c).map
                  (fun a => (a.isolanguage, a.alternate_name))) } := by
  unfold cityRows at h
  rcases List.mem_flatMap.mp h with ⟨c, hc, hrow⟩
  rcases List.mem_filterMap.mp hrow with ⟨co, hco, hco2⟩
  have hcof := List.mem_filter.mp hco
  split at hco2
  · exact ⟨c, hc, co, hcof.1, by simpa using hcof.2, by assumption,
      (Option.some.inj hco2).symm⟩
  · cases hco2

/-- C5: an alternate-name row whose place id matches no stored city is dropped
by `processRow` without changing the store, and every (language, name) pair of
every later city search result's translation aggregate comes from a stored
alternate-name row of that result's own place — a place different from the
orphan id. -/
theorem c5_orphan_never_stored (s : Store) (r : AltRawRow) (gid : Nat)
    (hgid : parseNat r.geonameid = some gid)
    (horphan : ∀ c ∈ s.cities, c.geonameid ≠ gid) :
    processRow s r = s ∧
    (∀ sim θ q row, row ∈ cityRows (processRow s r) sim θ q →
      row.geonameid ≠ some gid ∧
      ∀ kv ∈ row.name_translations_agg, ∃ a ∈ s.alternate_names,
        row.geonameid = some a.geonameid ∧ a.geonameid ≠ gid ∧
        kv = (a.isolanguage, a.alternate_name)) := by
  have h1 : processRow s r = s := processRow_orphan s r gid hgid horphan
  refine ⟨h1, ?_⟩
  rw [h1]
  intro sim θ q row hrow
  rcases mem_cityRows s sim θ q row hrow with ⟨c, hc, co, hco, hcode, hcand, hroweq⟩
  have hgid2 : row.geonameid = some c.geonameid := by rw [hroweq]
  have hne : c.geonameid ≠ gid := horphan c hc
  have hagg : row.name_translations_agg =
      jsonObjectAgg ((survivingAlts s sim θ q c).map
        (fun a => (a.isolanguage, a.alternate_name))) := by rw [hroweq]
  constructor
  · rw [hgid2]; simp [hne]
  · intro kv hkv
    rw [hagg] at hkv
    rcases List.mem_map.mp (mem_jsonObjectAgg _ _ hkv) with ⟨a, ha, hkva⟩
    have hmem := mem_survivingAlts s sim θ q c a ha
    refine ⟨a, hmem.1, by rw [hgid2, hmem.2], ?_, hkva.symm⟩
    rw [hmem.2]
    exact hne

/-- C5 instantiated: a raw row referencing the unknown place id 999 against a
store that only contains place 1. -/
theorem c5_orphan_never_stored_witness :
    processRow c4Store { alternatenameid := "50", geonameid := "999",
                         isolanguage := "en", alternate_name := "X" } = c4Store ∧
    (∀ sim θ q row, row ∈ cityRows
        (processRow c4Store { alternatenameid := "50", geonameid := "999",
                              isolanguage := "en", alternate_name := "X" }) sim θ q →
      row.geonameid ≠ some 999 ∧
      ∀ kv ∈ row.name_translations_agg, ∃ a ∈ c4Store.alternate_names,
        row.geonameid = some a.geonameid ∧ a.geonameid ≠ 999 ∧
        kv = (a.isolanguage, a.alternate_name)) :=
  c5_orphan_never_stored c4Store
    { alternatenameid := "50", geonameid := "999",
      isolanguage := "en", alternate_name := "X" } 999 (by decide) (by decide)

/-! Helper lemmas for the reverse lookup. -/

lemma round2_mono {a b : ℚ} (h : a ≤ b) : round2 a ≤ round2 b := by
  unfold round2
  simp only [Rat.divInt_eq_div]
  have h100 : (0 : ℚ) < 100 := by norm_num
  apply (div_le_div_iff_of_pos_right h100).mpr
  have hfl : ⌊a * 100 + Rat.divInt 1 2⌋ ≤ ⌊b * 100 + Rat.divInt 1 2⌋ :=
    Int.floor_le_floor (add_le_add_right (mul_le_mul_of_nonneg_right h (by norm_num)) _)
  exact_mod_cast hfl

/-- C2: reverse returns at most 5 results; every result comes from a joined
(city, country) row whose distance from the query point is within the radius
and carries that distance rounded to 2 decimals; results are ordered by
ascending distance; and an omitted radius behaves exactly like radius 50. -/
theorem c2_reverse_contract (s : Store) (dist : City → ℚ) (radiusKm : ℚ) :
    (reverseResults s dist radiusKm).length ≤ 5 ∧
    (∀ r ∈ reverseResults s dist radiusKm, ∃ p ∈ reverseJoined s,
      dist p.1 ≤ radiusKm ∧ r.distance_km = round2 (dist p.1) ∧ r.name = p.1.name) ∧
    List.Pairwise (fun r1 r2 => r1.distance_km ≤ r2.distance_km)
      (reverseResults s dist radiusKm) ∧
    (∀ d2 : ℚ → ℚ → City → ℚ, ∀ lat lon : ℚ,
      reverseEndpoint s d2 (some lat) (some lon) none =
        reverseEndpoint s d2 (some lat) (some lon) (some 50)) := by
  refine ⟨?_, ?_, ?_, ?_⟩
  · simp only [reverseResults, reverseRows, List.length_map, List.length_take]
    exact min_le_left _ _
  · intro r hr
    rcases List.mem_map.mp hr with ⟨p, hp, rfl⟩
    have hp2 : p ∈ (reverseJoined s).filter (fun p2 => decide (dist p2.1 ≤ radiusKm)) :=
      List.mem_mergeSort.mp (List.take_subset 5 _ hp)
    have hp3 := List.mem_filter.mp hp2
    exact ⟨p, hp3.1, of_decide_eq_true hp3.2, rfl, rfl⟩
  · have hsorted : List.Pairwise
        (fun p1 p2 : City × Country => (decide (dist p1.1 ≤ dist p2.1)) = true)
        (((reverseJoined s).filter (fun p => decide (dist p.1 ≤ radiusKm))).mergeSort
          (fun p1 p2 => decide (dist p1.1 ≤ dist p2.1))) :=
      List.sorted_mergeSort
        (by intro a b c h1 h2
            simp only [decide_eq_true_eq] at h1 h2 ⊢
            exact le_trans h1 h2)
        (by intro a b
            simp only [Bool.or_eq_true, decide_eq_true_eq]
            exact le_total _ _) _
    have htake := hsorted.sublist (List.take_sublist 5 _)
    unfold reverseResults
    rw [List.pairwise_map]
    refine htake.imp ?_
    intro p1 p2 h12
    exact round2_mono (of_decide_eq_true h12)
  · intro d2 lat lon
    rfl

/-- C2 instantiated at a concrete store, distance function and radius. -/
theorem c2_reverse_contract_witness :
    (reverseResults c4Store (fun _ => 7) 50).length ≤ 5 ∧
    (∀ r ∈ reverseResults c4Store (fun _ => 7) 50, ∃ p ∈ reverseJoined c4Store,
      (fun _ : City => (7 : ℚ)) p.1 ≤ 50 ∧
      r.distance_km = round2 ((fun _ : City => (7 : ℚ)) p.1) ∧ r.name = p.1.name) ∧
    List.Pairwise (fun r1 r2 => r1.distance_km ≤ r2.distance_km)
      (reverseResults c4Store (fun _ => 7) 50) ∧
    (∀ d2 : ℚ → ℚ → City → ℚ, ∀ lat lon : ℚ,
      reverseEndpoint c4Store d2 (some lat) (some lon) none =
        reverseEndpoint c4Store d2 (some lat) (some lon) (some 50)) :=
  c2_reverse_contract c4Store (fun _ => 7) 50

lemma flatMap_middle_nil {α β : Type} (f : α → List β) (l1 l2 : List α) (p : α)
    (hp : f p = []) : (l1 ++ p :: l2).flatMap f = (l1 ++ l2).flatMap f := by
  simp [List.flatMap_append, List.flatMap_cons, hp]

/-- C10: a stored place whose country code matches no stored country is
invisible to both read paths — the search and reverse responses over a store
containing it equal the responses over the same store without it, because both
queries inner-join cities with countries. -/
theorem c10_unmatched_country_invisible (co_list : List Country) (l1 l2 : List City)
    (p : City) (alts : List AlternateName) (calts : List CountryAltName)
    (hno : ∀ co ∈ co_list, co.country_code ≠ p.country_code)
    (sim : String → String → ℚ) (θ : ℚ) (q country ctype : Option String)
    (auto : Bool) (limit : Option Nat) (dist : ℚ → ℚ → City → ℚ)
    (lat lon radius : Option ℚ) :
    searchEndpoint (⟨co_list, l1 ++ p :: l2, alts, calts⟩ : Store) sim θ q country ctype auto limit =
      searchEndpoint (⟨co_list, l1 ++ l2, alts, calts⟩ : Store) sim θ q country ctype auto limit ∧
    reverseEndpoint (⟨co_list, l1 ++ p :: l2, alts, calts⟩ : Store) dist lat lon radius =
      reverseEndpoint (⟨co_list, l1 ++ l2, alts, calts⟩ : Store) dist lat lon radius := by
  have hfilter : co_list.filter (fun co => co.country_code == p.country_code) = [] :=
    List.filter_eq_nil_iff.mpr (fun co hco => by simpa using hno co hco)
  constructor
  · cases q with
    | none => rfl
    | some qs =>
      have hcity : cityRows (⟨co_list, l1 ++ p :: l2, alts, calts⟩ : Store) sim θ qs =
          cityRows (⟨co_list, l1 ++ l2, alts, calts⟩ : Store) sim θ qs := by
        unfold cityRows
        apply flatMap_middle_nil
        show (co_list.filter (fun co => co.country_code == p.country_code)).filterMap _ = []
        rw [hfilter]
        rfl
      have hcountry : countryRows (⟨co_list, l1 ++ p :: l2, alts, calts⟩ : Store) sim θ qs =
          countryRows (⟨co_list, l1 ++ l2, alts, calts⟩ : Store) sim θ qs := rfl
      simp only [searchEndpoint, searchResultsRows, hcity, hcountry]
  · cases lat with
    | none => rfl
    | some la =>
      cases lon with
      | none => rfl
      | some lo =>
        have hjoin : reverseJoined (⟨co_list, l1 ++ p :: l2, alts, calts⟩ : Store) =
            reverseJoined (⟨co_list, l1 ++ l2, alts, calts⟩ : Store) := by
          unfold reverseJoined
          apply flatMap_middle_nil
          show (co_list.filter (fun co => co.country_code == p.country_code)).map _ = []
          rw [hfilter]
          rfl
        simp only [reverseEndpoint, reverseResults, reverseRows, hjoin]

/-- C10 instantiated: a place with country code `ZZ` against a store whose only
country is `GB`. -/
theorem c10_unmatched_country_invisible_witness :
    searchEndpoint (⟨[{ country_code := "GB", name := "United Kingdom" }],
        [{ geonameid := 9, name := "Nowhere", country_code := "ZZ" }], [], []⟩ : Store)
      simZero 1 (some "nowhere") none none false none =
    searchEndpoint (⟨[{ country_code := "GB", name := "United Kingdom" }], [], [], []⟩ : Store)
      simZero 1 (some "nowhere") none none false none ∧
    reverseEndpoint (⟨[{ country_code := "GB", name := "United Kingdom" }],
        [{ geonameid := 9, name := "Nowhere", country_code := "ZZ" }], [], []⟩ : Store)
      distZero (some 0) (some 0) none =
    reverseEndpoint (⟨[{ country_code := "GB", name := "United Kingdom" }], [], [], []⟩ : Store)
      distZero (some 0) (some 0) none :=
  c10_unmatched_country_invisible [{ country_code := "GB", name := "United Kingdom" }]
    [] [] { geonameid := 9, name := "Nowhere", country_code := "ZZ" } [] []
    (by decide) simZero 1 (some "nowhere") none none false none distZero
    (some 0) (some 0) none

/-! Helper lemmas for the streaming-loop invariant. -/

/-- The invariant maintained by every event of the streaming loop. -/
def LoaderInv (st : LoaderState) : Prop :=
  st.lineQueue.length ≤ QUEUE_HIGH ∧
  (st.applying = true → st.batch.length ≤ BATCH_SIZE ∧ st.paused = true) ∧
  (st.applying = false → st.batch.length < BATCH_SIZE)

lemma pushLine_length (langs : Option (List String)) (batch : List AltRawRow)
    (line : String) : (pushLine langs batch line).length ≤ batch.length + 1 := by
  unfold pushLine
  split
  · simp
  · omega

lemma drainAux_spec (langs : Option (List String)) :
    ∀ (queue : List String) (batch : List AltRawRow) (st : LoaderState),
      batch.length < BATCH_SIZE →
      ((drainAux langs queue batch st).applying = true →
        (drainAux langs queue batch st).batch.length ≤ BATCH_SIZE ∧
        (drainAux langs queue batch st).paused = true ∧
        (drainAux langs queue batch st).lineQueue.length + 1 ≤ queue.length) ∧
      ((drainAux langs queue batch st).applying = false →
        (drainAux langs queue batch st).batch.length < BATCH_SIZE ∧
        (drainAux langs queue batch st).lineQueue = [] ∧
        (drainAux langs queue batch st).paused = false) := by
  intro queue
  induction queue with
  | nil =>
    intro batch st hb
    refine ⟨?_, ?_⟩
    · intro h; cases h
    · intro _; exact ⟨hb, rfl, rfl⟩
  | cons line rest ih =>
    intro batch st hb
    show _ ∧ _
    unfold drainAux
    dsimp only
    split
    case isTrue hfull =>
      refine ⟨?_, ?_⟩
      · intro _
        have hlen := pushLine_length langs batch line
        exact ⟨by simpa using Nat.le_trans hlen (by omega), rfl, by simp⟩
      · intro h; cases h
    case isFalse hsmall =>
      exact ⟨fun h => by
          have hrec := (ih (pushLine langs batch line) st (by omega)).1 h
          exact ⟨hrec.1, hrec.2.1, by have := hrec.2.2; simp only [List.length_cons]; omega⟩,
        fun h => (ih (pushLine langs batch line) st (by omega)).2 h⟩

lemma drain_inv (langs : Option (List String)) (st : LoaderState)
    (hb : st.batch.length < BATCH_SIZE)
    (hq : st.lineQueue.length ≤ QUEUE_HIGH + 1) :
    LoaderInv (drain langs st) := by
  have hspec := drainAux_spec langs st.lineQueue st.batch st hb
  unfold drain
  refine ⟨?_, ?_, ?_⟩
  · cases happ : (drainAux langs st.lineQueue st.batch st).applying with
    | true =>
      obtain ⟨hbatch, hpaused, hqueue⟩ := hspec.1 happ
      omega
    | false =>
      obtain ⟨hbatch, hqueue, hpaused⟩ := hspec.2 happ
      simp [hqueue]
  · intro happ
    obtain ⟨hbatch, hpaused, hqueue⟩ := hspec.1 happ
    exact ⟨hbatch, hpaused⟩
  · intro happ
    exact (hspec.2 happ).1

lemma loaderStep_inv (langs : Option (List String)) {st st' : LoaderState}
    (h : LoaderStep langs st st') (hinv : LoaderInv st) : LoaderInv st' := by
  cases h with
  | deliver line rest hin hpause happ =>
    have hq : st.lineQueue.length ≤ QUEUE_HIGH := hinv.1
    have hb : st.batch.length < BATCH_SIZE := hinv.2.2 happ
    by_cases hlen : QUEUE_HIGH < (st.lineQueue ++ [line]).length
    · rw [if_pos hlen]
      apply drain_inv
      · exact hb
      · dsimp only
        simp only [List.length_append, List.length_singleton]
        omega
    · rw [if_neg hlen]
      simp only [List.length_append, List.length_singleton] at hlen
      refine ⟨?_, ?_, ?_⟩
      · dsimp only
        simp only [List.length_append, List.length_singleton]
        omega
      · intro hcon
        rw [happ] at hcon
        cases hcon
      · intro _
        exact hb
  | wake happ =>
    exact drain_inv langs st (hinv.2.2 happ) (by have := hinv.1; omega)
  | finishBatch happ =>
    apply drain_inv
    · simp [BATCH_SIZE]
    · have h1 := hinv.1
      dsimp only
      omega

/-- C7: in every reachable state of the alternate-names streaming loop, the
number of read-but-unapplied lines (queued lines plus the current batch) stays
under the fixed ceiling `QUEUE_HIGH + BATCH_SIZE`, the single in-flight batch
never exceeds `BATCH_SIZE` rows, and the line source is paused whenever a
batch is being applied. -/
theorem c7_backpressure_bounded (langs : Option (List String)) (input : List String)
    (s0 : Store) (st : LoaderState) (h : LoaderReachable langs input s0 st) :
    st.lineQueue.length + st.batch.length ≤ QUEUE_HIGH + BATCH_SIZE ∧
    st.batch.length ≤ BATCH_SIZE ∧
    (st.applying = true → st.paused = true) := by
  have hinv : LoaderInv st := by
    induction h with
    | refl =>
      refine ⟨by simp [loaderInit, QUEUE_HIGH], ?_, ?_⟩
      · intro hcon; cases hcon
      · intro _; simp [loaderInit, BATCH_SIZE]
    | tail hsteps hstep ih => exact loaderStep_inv langs hstep ih
  obtain ⟨h1, h2, h3⟩ := hinv
  cases happ : st.applying with
  | true =>
    obtain ⟨hb, hp⟩ := h2 happ
    exact ⟨by omega, hb, fun _ => hp⟩
  | false =>
    have hb := h3 happ
    exact ⟨by omega, by omega, fun hcon => by simp at hcon⟩

/-- C7 instantiated at the initial state of a concrete run. -/
theorem c7_backpressure_bounded_witness :
    (loaderInit ["10\t20\ten\tParis\t1\t0\t0\t0"] c4Store).lineQueue.length +
      (loaderInit ["10\t20\ten\tParis\t1\t0\t0\t0"] c4Store).batch.length ≤
        QUEUE_HIGH + BATCH_SIZE ∧
    (loaderInit ["10\t20\ten\tParis\t1\t0\t0\t0"] c4Store).batch.length ≤ BATCH_SIZE ∧
    ((loaderInit ["10\t20\ten\tParis\t1\t0\t0\t0"] c4Store).applying = true →
      (loaderInit ["10\t20\ten\tParis\t1\t0\t0\t0"] c4Store).paused = true) :=
  c7_backpressure_bounded none ["10\t20\ten\tParis\t1\t0\t0\t0"] c4Store
    (loaderInit ["10\t20\ten\tParis\t1\t0\t0\t0"] c4Store) Relation.ReflTransGen.refl

/-! The scoring-ladder tiers of the specification, and how the implemented
`CASE` ladders relate to them. -/

/-- The tier (0 highest) at which a city matches the specified ladder:
exact primary, exact ascii, exact alternate, substring primary, substring
ascii, substring alternate; 6 means fuzzy fallback only. -/
def cityTier (s : Store) (q : String) (c : City) : Nat :=
  if cityExactName q c then 0
  else if cityExactAscii q c then 1
  else if cityExactAlt s q c then 2
  else if citySubName q c then 3
  else if citySubAscii q c then 4
  else if citySubAlt s q c then 5
  else 6

/-- The tier at which a country matches the specified ladder (countries have
no ascii tiers: their ascii name is the primary name). -/
def countryTier (s : Store) (q : String) (co : Country) : Nat :=
  if countryExactName q co then 0
  else if countryExactAlt s q co then 2
  else if countrySubName q co then 3
  else if countrySubAlt s q co then 5
  else 6

/-- A search candidate: a city or a country. -/
inductive Cand where
  | city (c : City)
  | country (co : Country)
deriving DecidableEq

/-- Ladder tier of a candidate. -/
def candTier (s : Store) (q : String) : Cand → Nat
  | .city c => cityTier s q c
  | .country co => countryTier s q co

/-- Implemented score of a candidate. -/
def candScore (s : Store) (sim : String → String → ℚ) (θ : ℚ) (q : String) :
    Cand → ℚ
  | .city c => cityScore s sim θ q c
  | .country co => countryScore s sim θ q co

/-- The score the specification's ladder assigns to each tier (10 is the upper
bound of the fuzzy fallback). -/
def tierValue : Nat → ℚ
  | 0 => 100
  | 1 => 95
  | 2 => 90
  | 3 => 80
  | 4 => 75
  | 5 => 70
  | _ => 10

lemma maxSimList_nonneg (sim : String → String → ℚ) (q : String)
    (names : List String) : 0 ≤ maxSimList sim q names := by
  unfold maxSimList
  have h : ∀ (l : List String) (acc : ℚ), acc ≤ l.foldl (fun m n => max m (sim n q)) acc := by
    intro l
    induction l with
    | nil => intro acc; exact le_refl acc
    | cons n rest ih => intro acc; exact le_trans (le_max_left _ _) (ih _)
  exact h names 0

lemma maxSimList_le_one (sim : String → String → ℚ) (q : String)
    (hsim : ∀ a b, 0 ≤ sim a b ∧ sim a b ≤ 1) (names : List String) :
    maxSimList sim q names ≤ 1 := by
  unfold maxSimList
  have h : ∀ (l : List String) (acc : ℚ), acc ≤ 1 →
      l.foldl (fun m n => max m (sim n q)) acc ≤ 1 := by
    intro l
    induction l with
    | nil => intro acc hacc; exact hacc
    | cons n rest ih => intro acc hacc; exact ih _ (max_le hacc (hsim n q).2)
  exact h names 0 (by norm_num)

lemma cityScore_fuzzy_bounds (s : Store) (sim : String → String → ℚ) (θ : ℚ)
    (q : String) (c : City) (hsim : ∀ a b, 0 ≤ sim a b ∧ sim a b ≤ 1) :
    0 ≤ 10 * max (max (sim c.name q) (sim c.ascii_name q))
        (maxSimList sim q ((survivingAlts s sim θ q c).map (fun a => a.alternate_name))) ∧
      10 * max (max (sim c.name q) (sim c.ascii_name q))
        (maxSimList sim q ((survivingAlts s sim θ q c).map (fun a => a.alternate_name))) ≤ 10 := by
  constructor
  · apply mul_nonneg (by norm_num)
    exact le_trans (maxSimList_nonneg sim q _) (le_max_right _ _)
  · have hb : max (max (sim c.name q) (sim c.ascii_name q))
        (maxSimList sim q ((survivingAlts s sim θ q c).map (fun a => a.alternate_name))) ≤ 1 :=
      max_le (max_le (hsim _ _).2 (hsim _ _).2) (maxSimList_le_one sim q hsim _)
    calc 10 * max (max (sim c.name q) (sim c.ascii_name q))
          (maxSimList sim q ((survivingAlts s sim θ q c).map (fun a => a.alternate_name)))
        ≤ 10 * 1 := mul_le_mul_of_nonneg_left hb (by norm_num)
      _ = 10 := by norm_num

lemma cityScore_eq_tier (s : Store) (sim : String → String → ℚ) (θ : ℚ)
    (q : String) (c : City) (h : cityTier s q c < 6) :
    cityScore s sim θ q c = tierValue (cityTier s q c) := by
  unfold cityTier at h ⊢
  unfold cityScore
  split_ifs at h ⊢ <;> first | rfl | omega

lemma cityScore_tier6 (s : Store) (sim : String → String → ℚ) (θ : ℚ)
    (q : String) (c : City) (hsim : ∀ a b, 0 ≤ sim a b ∧ sim a b ≤ 1)
    (h : cityTier s q c = 6) :
    0 ≤ cityScore s sim θ q c ∧ cityScore s sim θ q c ≤ 10 := by
  have hbounds := cityScore_fuzzy_bounds s sim θ q c hsim
  unfold cityTier at h
  unfold cityScore
  split_ifs at h ⊢ <;> first | omega | exact hbounds

lemma countryScore_fuzzy_bounds (s : Store) (sim : String → String → ℚ) (θ : ℚ)
    (q : String) (co : Country) (hsim : ∀ a b, 0 ≤ sim a b ∧ sim a b ≤ 1) :
    0 ≤ 10 * max (sim co.name q)
        (maxSimList sim q ((countrySurvivingAlts s sim θ q co).map (fun a => a.name))) ∧
      10 * max (sim co.name q)
        (maxSimList sim q ((countrySurvivingAlts s sim θ q co).map (fun a => a.name))) ≤ 10 := by
  constructor
  · apply mul_nonneg (by norm_num)
    exact le_trans (maxSimList_nonneg sim q _) (le_max_right _ _)
  · have hb : max (sim co.name q)
        (maxSimList sim q ((countrySurvivingAlts s sim θ q co).map (fun a => a.name))) ≤ 1 :=
      max_le (hsim _ _).2 (maxSimList_le_one sim q hsim _)
    calc 10 * max (sim co.name q)
          (maxSimList sim q ((countrySurvivingAlts s sim θ q co).map (fun a => a.name)))
        ≤ 10 * 1 := mul_le_mul_of_nonneg_left hb (by norm_num)
      _ = 10 := by norm_num

lemma countryScore_tier0 (s : Store) (sim : String → String → ℚ) (θ : ℚ)
    (q : String) (co : Country) (h : countryTier s q co = 0) :
    countryScore s sim θ q co = 100 := by
  unfold countryTier at h
  unfold countryScore
  split_ifs at h ⊢ <;> first | rfl | omega

lemma countryScore_tier2_nosub (s : Store) (sim : String → String → ℚ) (θ : ℚ)
    (q : String) (co : Country) (h : countryTier s q co = 2)
    (hsub : countrySubName q co = false) :
    countryScore s sim θ q co = 90 := by
  unfold countryTier at h
  unfold countryScore
  split_ifs at h ⊢ <;> first | rfl | omega | simp_all

lemma countryScore_tier2_options (s : Store) (sim : String → String → ℚ) (θ : ℚ)
    (q : String) (co : Country) (h : countryTier s q co = 2) :
    countryScore s sim θ q co = 80 ∨ countryScore s sim θ q co = 90 := by
  unfold countryTier at h
  unfold countryScore
  split_ifs at h ⊢ <;> first | exact Or.inl rfl | exact Or.inr rfl | omega

lemma countryScore_tier3 (s : Store) (sim : String → String → ℚ) (θ : ℚ)
    (q : String) (co : Country) (h : countryTier s q co = 3) :
    countryScore s sim θ q co = 80 := by
  unfold countryTier at h
  unfold countryScore
  split_ifs at h ⊢ <;> first | rfl | omega

lemma countryScore_tier5 (s : Store) (sim : String → String → ℚ) (θ : ℚ)
    (q : String) (co : Country) (h : countryTier s q co = 5) :
    countryScore s sim θ q co = 70 := by
  unfold countryTier at h
  unfold countryScore
  split_ifs at h ⊢ <;> first | rfl | omega

lemma countryScore_tier6 (s : Store) (sim : String → String → ℚ) (θ : ℚ)
    (q : String) (co : Country) (hsim : ∀ a b, 0 ≤ sim a b ∧ sim a b ≤ 1)
    (h : countryTier s q co = 6) :
    0 ≤ countryScore s sim θ q co ∧ countryScore s sim θ q co ≤ 10 := by
  have hbounds := countryScore_fuzzy_bounds s sim θ q co hsim
  unfold countryTier at h
  unfold countryScore
  split_ifs at h ⊢ <;> first | omega | exact hbounds

lemma cityTier_le (s : Store) (q : String) (c : City) : cityTier s q c ≤ 6 := by
  unfold cityTier
  split_ifs <;> omega

lemma countryTier_mem (s : Store) (q : String) (co : Country) :
    countryTier s q co = 0 ∨ countryTier s q co = 2 ∨ countryTier s q co = 3 ∨
    countryTier s q co = 5 ∨ countryTier s q co = 6 := by
  unfold countryTier
  split_ifs <;> omega

lemma candTier_le (s : Store) (q : String) (x : Cand) : candTier s q x ≤ 6 := by
  cases x with
  | city c => exact cityTier_le s q c
  | country co => rcases countryTier_mem s q co with h | h | h | h | h <;>
      simp [candTier, h]

lemma tierValue_lt_tierValue {a b : Nat} (h1 : a < b) (h2 : b ≤ 6) :
    tierValue b < tierValue a := by
  interval_cases b <;> interval_cases a <;> decide

lemma candScore_le_tierValue (s : Store) (sim : String → String → ℚ) (θ : ℚ)
    (q : String) (x : Cand) (hsim : ∀ a b, 0 ≤ sim a b ∧ sim a b ≤ 1) :
    candScore s sim θ q x ≤ tierValue (candTier s q x) := by
  cases x with
  | city c =>
    rcases Nat.lt_or_ge (cityTier s q c) 6 with hlt | hge
    · simp only [candScore, candTier]
      rw [cityScore_eq_tier s sim θ q c hlt]
    · have h6 : cityTier s q c = 6 := le_antisymm (cityTier_le s q c) hge
      simp only [candScore, candTier, h6]
      exact (cityScore_tier6 s sim θ q c hsim h6).2
  | country co =>
    simp only [candScore, candTier]
    rcases countryTier_mem s q co with h | h | h | h | h <;> rw [h]
    · rw [countryScore_tier0 s sim θ q co h]
      decide
    · rcases countryScore_tier2_options s sim θ q co h with h80 | h90
      · rw [h80]; decide
      · rw [h90]; decide
    · rw [countryScore_tier3 s sim θ q co h]
      decide
    · rw [countryScore_tier5 s sim θ q co h]
      decide
    · exact (countryScore_tier6 s sim θ q co hsim h).2

/-- C1 (amended): with similarity values in [0,1], a candidate matching at a
strictly higher tier of the specified ladder scores strictly higher than one
matching at a lower tier, for city candidates unconditionally; for a country
candidate matching at the exact-alternate tier this additionally requires that
its primary name not contain the query as a substring, because the country
`CASE` evaluates the substring-primary rule (80) before the exact-alternate
rule (90). -/
theorem c1_tier_outranks (s : Store) (sim : String → String → ℚ) (θ : ℚ)
    (q : String) (A B : Cand)
    (hsim : ∀ a b, 0 ≤ sim a b ∧ sim a b ≤ 1)
    (hAB : candTier s q A < candTier s q B)
    (hexc : ∀ co, A = Cand.country co → countryTier s q co = 2 →
      countrySubName q co = false) :
    candScore s sim θ q B < candScore s sim θ q A := by
  have hA6 : candTier s q A < 6 := lt_of_lt_of_le hAB (candTier_le s q B)
  have hAeq : candScore s sim θ q A = tierValue (candTier s q A) := by
    cases hx : A with
    | city c =>
      rw [hx] at hA6
      simp only [candTier] at hA6
      simp only [candScore, candTier]
      exact cityScore_eq_tier s sim θ q c hA6
    | country co =>
      rw [hx] at hA6
      simp only [candTier] at hA6
      simp only [candScore, candTier]
      rcases countryTier_mem s q co with h | h | h | h | h <;> rw [h]
      · exact countryScore_tier0 s sim θ q co h
      · exact countryScore_tier2_nosub s sim θ q co h (hexc co hx h)
      · exact countryScore_tier3 s sim θ q co h
      · exact countryScore_tier5 s sim θ q co h
      · omega
  calc candScore s sim θ q B ≤ tierValue (candTier s q B) :=
        candScore_le_tierValue s sim θ q B hsim
    _ < tierValue (candTier s q A) :=
        tierValue_lt_tierValue hAB (candTier_le s q B)
    _ = candScore s sim θ q A := hAeq.symm

/-- The store exhibiting the country-ladder inversion: country `AA` has an
alternate name exactly equal to the query while its primary name contains the
query as a substring; country `BB` only matches by substring. -/
def c1Store : Store :=
  { countries := [{ country_code := "AA", name := "Germania" },
                  { country_code := "BB", name := "Germanic" }],
    country_alternate_names := [{ country_code := "AA", name := "German" }] }

/-- C1 as stated is false: country `AA` matches at the exact-alternate tier
(2), strictly higher than country `BB`'s substring-primary tier (3), yet the
implemented `CASE` gives both the score 80, because it tests `co.name ILIKE`
before the exact-alternate rule. -/
theorem c1_tier_outranks_counterexample :
    candTier c1Store "german"
        (Cand.country { country_code := "AA", name := "Germania" }) <
      candTier c1Store "german"
        (Cand.country { country_code := "BB", name := "Germanic" }) ∧
    ¬ (candScore c1Store simZero 1 "german"
          (Cand.country { country_code := "BB", name := "Germanic" }) <
        candScore c1Store simZero 1 "german"
          (Cand.country { country_code := "AA", name := "Germania" })) := by
  decide

/-- C1 (amended) instantiated: an exact-primary city versus a
substring-primary city. -/
theorem c1_tier_outranks_witness :
    candScore c1Store simZero 1 "germanic"
        (Cand.city { geonameid := 2, name := "Germanic City", country_code := "BB" }) <
      candScore c1Store simZero 1 "germanic"
        (Cand.city { geonameid := 1, name := "Germanic", country_code := "BB" }) :=
  c1_tier_outranks c1Store simZero 1 "germanic"
    (Cand.city { geonameid := 1, name := "Germanic", country_code := "BB" })
    (Cand.city { geonameid := 2, name := "Germanic City", country_code := "BB" })
    (fun a b => ⟨le_refl 0, zero_le_one⟩) (by decide)
    (fun co h => Cand.noConfusion h)

/-! Helper lemmas characterizing the translation aggregation. -/

lemma lookup_map_replace (xs : List (String × String)) (p : String × String)
    (k : String) (hk : k ≠ p.1) :
    (xs.map (fun q2 => if q2.1 == p.1 then p else q2)).lookup k = xs.lookup k := by
  induction xs with
  | nil => rfl
  | cons x rest ih =>
    obtain ⟨x1, x2⟩ := x
    by_cases hx : x1 = p.1
    · have hb : (x1 == p.1) = true := beq_iff_eq.mpr hx
      have hkp : (k == p.1) = false := beq_eq_false_iff_ne.mpr hk
      have hkx : (k == x1) = false := beq_eq_false_iff_ne.mpr (hx ▸ hk)
      obtain ⟨p1, p2⟩ := p
      simp only [List.map_cons, hb, if_true, List.lookup_cons, hkp, hkx, ih]
    · have hb : (x1 == p.1) = false := beq_eq_false_iff_ne.mpr hx
      simp only [List.map_cons, hb, Bool.false_eq_true, if_false, List.lookup_cons, ih]

lemma lookup_map_replace_self (xs : List (String × String)) (p : String × String)
    (hany : xs.any (fun q2 => q2.1 == p.1) = true) :
    (xs.map (fun q2 => if q2.1 == p.1 then p else q2)).lookup p.1 = some p.2 := by
  induction xs with
  | nil => simp at hany
  | cons x rest ih =>
    obtain ⟨x1, x2⟩ := x
    by_cases hx : x1 = p.1
    · have hb : (x1 == p.1) = true := beq_iff_eq.mpr hx
      obtain ⟨p1, p2⟩ := p
      simp only [List.map_cons, hb, if_true, List.lookup_cons, beq_self_eq_true]
    · have hb : (x1 == p.1) = false := beq_eq_false_iff_ne.mpr hx
      have hpk : (p.1 == x1) = false := beq_eq_false_iff_ne.mpr (fun h2 => hx h2.symm)
      have hany2 : rest.any (fun q2 => q2.1 == p.1) = true := by
        simp only [List.any_cons, hb, Bool.false_or] at hany
        exact hany
      simp only [List.map_cons, hb, Bool.false_eq_true, if_false, List.lookup_cons,
        hpk, ih hany2]

lemma lookup_none_of_not_any (m : List (String × String)) (k : String)
    (h : m.any (fun q2 => q2.1 == k) = false) : m.lookup k = none := by
  induction m with
  | nil => rfl
  | cons x rest ih =>
    obtain ⟨x1, x2⟩ := x
    simp only [List.any_cons, Bool.or_eq_false_iff] at h
    have hkx : (k == x1) = false :=
      beq_eq_false_iff_ne.mpr (fun h2 => by simp [h2] at h)
    simp only [List.lookup_cons, hkx, ih h.2]

lemma lookup_append_pair (m : List (String × String)) (p : String × String)
    (k : String) (hm : m.lookup k = none) :
    (m ++ [p]).lookup k = if k = p.1 then some p.2 else none := by
  induction m with
  | nil =>
    obtain ⟨p1, p2⟩ := p
    by_cases hk : k = p1
    · have hb : (k == p1) = true := beq_iff_eq.mpr hk
      simp [List.lookup_cons, hb, hk]
    · have hb : (k == p1) = false := beq_eq_false_iff_ne.mpr hk
      simp [List.lookup_cons, hb, hk]
  | cons x rest ih =>
    obtain ⟨x1, x2⟩ := x
    by_cases hx : k = x1
    · have hb : (k == x1) = true := beq_iff_eq.mpr hx
      simp only [List.lookup_cons, hb] at hm
      cases hm
    · have hb : (k == x1) = false := beq_eq_false_iff_ne.mpr hx
      simp only [List.lookup_cons, hb] at hm
      simp only [List.cons_append, List.lookup_cons, hb, ih hm]

lemma lookup_append_ne (m : List (String × String)) (p : String × String)
    (k : String) (hk : k ≠ p.1) : (m ++ [p]).lookup k = m.lookup k := by
  induction m with
  | nil =>
    obtain ⟨p1, p2⟩ := p
    have hb : (k == p1) = false := beq_eq_false_iff_ne.mpr hk
    simp [List.lookup_cons, hb]
  | cons x rest ih =>
    obtain ⟨x1, x2⟩ := x
    by_cases hx : k = x1
    · have hb : (k == x1) = true := beq_iff_eq.mpr hx
      simp [List.lookup_cons, hb]
    · have hb : (k == x1) = false := beq_eq_false_iff_ne.mpr hx
      simp only [List.cons_append, List.lookup_cons, hb, ih]

lemma lookup_upsertAssoc (m : List (String × String)) (p : String × String)
    (k : String) :
    (upsertAssoc m p).lookup k = if k = p.1 then some p.2 else m.lookup k := by
  unfold upsertAssoc
  split
  case isTrue hany =>
    by_cases hk : k = p.1
    · rw [if_pos hk, hk]
      exact lookup_map_replace_self m p hany
    · rw [if_neg hk]
      exact lookup_map_replace m p k hk
  case isFalse hany =>
    by_cases hk : k = p.1
    · rw [if_pos hk]
      have hnone : m.lookup k = none := by
        apply lookup_none_of_not_any
        rw [Bool.not_eq_true] at hany
        rw [hk]
        exact hany
      rw [lookup_append_pair m p k hnone, if_pos hk]
    · rw [if_neg hk]
      exact lookup_append_ne m p k hk

lemma lookup_foldl_upsertAssoc (pairs : List (String × String)) (k : String) :
    ∀ m, (pairs.foldl upsertAssoc m).lookup k =
      match (pairs.filter (fun p => p.1 == k)).getLast? with
      | some p2 => some p2.2
      | none => m.lookup k := by
  induction pairs with
  | nil => intro m; rfl
  | cons p rest ih =>
    intro m
    rw [List.foldl_cons, ih (upsertAssoc m p), List.filter_cons]
    by_cases hp : p.1 = k
    · rw [if_pos (beq_iff_eq.mpr hp)]
      cases hfr : rest.filter (fun p2 => p2.1 == k) with
      | nil =>
        simp only [List.getLast?_nil, List.getLast?_singleton]
        rw [lookup_upsertAssoc, if_pos hp.symm]
      | cons q qs =>
        rw [List.getLast?_cons_cons]
        cases hql : (q :: qs).getLast? with
        | some p2 => rfl
        | none => exact absurd (List.getLast?_eq_none_iff.mp hql) (by simp)
    · rw [if_neg (by simp [hp])]
      cases hfr : (rest.filter (fun p2 => p2.1 == k)).getLast? with
      | some p2 => rfl
      | none =>
        simp only
        rw [lookup_upsertAssoc, if_neg (fun h => hp h.symm)]

lemma lookup_jsonObjectAgg (pairs : List (String × String)) (k : String) :
    (jsonObjectAgg pairs).lookup k =
      ((pairs.filter (fun p => p.1 == k)).getLast?).map (fun p => p.2) := by
  unfold jsonObjectAgg
  rw [lookup_foldl_upsertAssoc pairs k []]
  cases hfr : (pairs.filter (fun p => p.1 == k)).getLast? <;> simp

lemma mem_of_getLast?_eq_some {α : Type} {l : List α} {a : α}
    (h : l.getLast? = some a) : a ∈ l := by
  rcases List.getLast?_eq_some_iff.mp h with ⟨ys, rfl⟩
  exact List.mem_append.mpr (Or.inr (List.mem_singleton.mpr rfl))

lemma formatSearchRow_city (row : SearchRow) (h : row.rtype = "city") :
    (formatSearchRow row).name_translations =
      (match row.name_translations_agg.lookup "en" with
        | none => upsertAssoc row.name_translations_agg ("en", row.name)
        | some v =>
          if v == "" then upsertAssoc row.name_translations_agg ("en", row.name)
          else row.name_translations_agg) := by
  unfold formatSearchRow
  rw [h]
  simp only [beq_self_eq_true, if_true]
  cases hl : row.name_translations_agg.lookup "en" with
  | none => simp [hl]
  | some v =>
    by_cases hv : v = ""
    · simp [hl, hv]
    · simp [hl, hv]

/-- C8 (amended): every city search row comes from a stored place, and its
formatted translation mapping aggregates the (language, name) pairs of that
place's alternate-name rows that survive the query's `WHERE` clause (not of
all its rows), with a later pair overwriting an earlier one of the same
language; provided stored names are non-empty (which ingestion guarantees),
the canonical name is injected under `en` exactly when no `en` pair survives,
so an `en` entry is always present. -/
theorem c8_city_translations (s : Store) (sim : String → String → ℚ) (θ : ℚ)
    (q : String) (hne : ∀ a ∈ s.alternate_names, a.alternate_name ≠ "")
    (row : SearchRow) (hrow : row ∈ cityRows s sim θ q) :
    ∃ c ∈ s.cities, row.geonameid = some c.geonameid ∧
      (∀ lang, lang ≠ "en" →
        (formatSearchRow row).name_translations.lookup lang =
          (((survivingAlts s sim θ q c).map
              (fun a => (a.isolanguage, a.alternate_name))).filter
            (fun p => p.1 == lang)).getLast?.map (fun p => p.2)) ∧
      (formatSearchRow row).name_translations.lookup "en" =
        some (((((survivingAlts s sim θ q c).map
              (fun a => (a.isolanguage, a.alternate_name))).filter
            (fun p => p.1 == "en")).getLast?.map (fun p => p.2)).getD c.name) := by
  rcases mem_cityRows s sim θ q row hrow with ⟨c, hc, co, hco, hcode, hcand, hroweq⟩
  refine ⟨c, hc, by rw [hroweq], ?_⟩
  have hrt : row.rtype = "city" := by rw [hroweq]
  have hagg : row.name_translations_agg =
      jsonObjectAgg ((survivingAlts s sim θ q c).map
        (fun a => (a.isolanguage, a.alternate_name))) := by rw [hroweq]
  have hname : row.name = c.name := by rw [hroweq]
  have htr := formatSearchRow_city row hrt
  rw [hagg, hname] at htr
  cases hlook : (jsonObjectAgg ((survivingAlts s sim θ q c).map
      (fun a => (a.isolanguage, a.alternate_name)))).lookup "en" with
  | none =>
    rw [hlook] at htr
    simp only at htr
    constructor
    · intro lang hlang
      rw [htr, lookup_upsertAssoc, if_neg hlang, lookup_jsonObjectAgg]
    · rw [htr, lookup_upsertAssoc, if_pos rfl]
      have hnone : (((survivingAlts s sim θ q c).map
          (fun a => (a.isolanguage, a.alternate_name))).filter
            (fun p => p.1 == "en")).getLast? = none := by
        have h2 := lookup_jsonObjectAgg ((survivingAlts s sim θ q c).map
          (fun a => (a.isolanguage, a.alternate_name))) "en"
        rw [hlook] at h2
        exact Option.map_eq_none.mp h2.symm
      rw [hnone]
      rfl
  | some v =>
    have h2 := lookup_jsonObjectAgg ((survivingAlts s sim θ q c).map
      (fun a => (a.isolanguage, a.alternate_name))) "en"
    rw [hlook] at h2
    rcases Option.map_eq_some'.mp h2.symm with ⟨p, hp, hpv⟩
    have hpmem : p ∈ ((survivingAlts s sim θ q c).map
        (fun a => (a.isolanguage, a.alternate_name))) :=
      List.mem_of_mem_filter (mem_of_getLast?_eq_some hp)
    rcases List.mem_map.mp hpmem with ⟨a, ha, hap⟩
    have hv : v ≠ "" := by
      rw [← hpv, ← hap]
      exact hne a (mem_survivingAlts s sim θ q c a ha).1
    rw [hlook] at htr
    simp only at htr
    rw [if_neg (by simpa using hv)] at htr
    constructor
    · intro lang hlang
      rw [htr, lookup_jsonObjectAgg]
    · rw [htr, hlook, hp]
      simp [hpv]

/-- Store for the C8 counterexample: place 1 has a `de` and a `ru` alternate
name, and the query matches only the `ru` one. -/
def c8Store : Store :=
  { countries := [{ country_code := "XX", name := "Xland" }],
    cities := [{ geonameid := 1, name := "Testville", ascii_name := "Testville",
                 country_code := "XX" }],
    alternate_names :=
      [{ alternatenameid := 10, geonameid := 1, isolanguage := "de",
         alternate_name := "Testheim" },
       { alternatenameid := 11, geonameid := 1, isolanguage := "ru",
         alternate_name := "Tyestgrad" }] }

/-- C8 as stated is false: place 1 has a stored `de` alternate name, yet the
only city search result for a query that matches just the `ru` variant carries
a translation mapping without any `de` entry — the aggregate ranges over the
rows surviving the `WHERE` clause, not over every pair for the place. -/
theorem c8_city_translations_counterexample :
    (∃ a ∈ c8Store.alternate_names, a.geonameid = 1 ∧ a.isolanguage = "de") ∧
    ((cityRows c8Store simZero 1 "tyestgrad").map
        (fun row => (formatSearchRow row).name_translations)) =
      [[("ru", "Tyestgrad"), ("en", "Testville")]] := by
  decide

/-- Store for the C8 witness: one place, no alternate names. -/
def c8WitnessStore : Store :=
  { countries := [{ country_code := "XX", name := "Xland" }],
    cities := [{ geonameid := 1, name := "London", ascii_name := "London",
                 country_code := "XX" }] }

/-- The single search row produced by `c8WitnessStore` for the query
`london`. -/
def c8WitnessRow : SearchRow :=
  { rtype := "city", geonameid := some 1, name := "London",
    ascii_name := "London", country_code := "XX", country_name := "Xland",
    admin_region := none, latitude := 0, longitude := 0,
    spoken_languages := "", country_translations := [], score := 100,
    name_translations_agg := [] }

/-- C8 (amended) instantiated on a concrete store and row. -/
theorem c8_city_translations_witness :
    ∃ c ∈ c8WitnessStore.cities, c8WitnessRow.geonameid = some c.geonameid ∧
      (∀ lang, lang ≠ "en" →
        (formatSearchRow c8WitnessRow).name_translations.lookup lang =
          (((survivingAlts c8WitnessStore simZero 1 "london" c).map
              (fun a => (a.isolanguage, a.alternate_name))).filter
            (fun p => p.1 == lang)).getLast?.map (fun p => p.2)) ∧
      (formatSearchRow c8WitnessRow).name_translations.lookup "en" =
        some (((((survivingAlts c8WitnessStore simZero 1 "london" c).map
              (fun a => (a.isolanguage, a.alternate_name))).filter
            (fun p => p.1 == "en")).getLast?.map (fun p => p.2)).getD c.name) :=
  c8_city_translations c8WitnessStore simZero 1 "london" (by decide)
    c8WitnessRow (by decide)
